import Mathlib

/-! Verification development for the validation core of the Syrinx repository
(`src/core/validator.py`, together with the pieces of `src/core/input_parser.py`
it depends on: `parse_age_string`, `EncounterSpec`, `ErrorSpec` and the two
enumerations).  The Python module is a rule-based text classifier: it scans a
dialogue transcript with a static regex pattern library, combines the fired
markers into per-defect verdicts, aggregates them, and infers a deduplicated,
categorized list of learning targets.  Everything below is a direct shallow
embedding of those functions. -/

namespace Syrinx

/-! ### A small regex engine

`find_pattern_matches` in the source applies Python regexes (compiled with
`re.IGNORECASE`) to a text body.  The pattern libraries only use a small
fragment of regex syntax: literal characters, alternation `(a|b)`, the word
boundary `\b`, the classes `\s` and `[-\s]?`, the wildcard `.`, `.*`, `\s*`
and `\w+`.  The `RE` type below covers exactly that fragment and `reSearch`
implements Python's unanchored search ("is there a match anywhere in the
string"), case-insensitively.  Every consumer of `find_pattern_matches` in
the source uses only whether the match list is nonempty (truthiness or
`len(...) >= 1`), so the embedding keeps the Boolean "at least one match"
(`has_pattern_match`); the literal matched snippets, used only inside the
human-readable evidence notes, are elided and the evidence entries keep the
fixed descriptive part of the source's f-strings. -/

/-- Word characters as Python's `\b` and `\w` see them (ASCII range, which is
all the pattern library uses): letters, digits and underscore. -/
def isWordChar (c : Char) : Bool :=
  c.isAlpha || c.isDigit || c == '_'

/-- Whitespace as Python's `\s` sees it. -/
def isSpaceChar (c : Char) : Bool :=
  c == ' ' || c == '\t' || c == '\n' || c == '\r' || c == '\x0b' || c == '\x0c'

/-- The regex fragment used by the source's pattern libraries. -/
inductive RE where
  | eps
  | chr (c : Char)
  | anyc
  | spacec
  | wb
  | seq (a b : RE)
  | alt (a b : RE)
  | opt (r : RE)
  | starAny
  | starSpace
  | plusWord
deriving Repr

/-- Matching states: whether the previously consumed character (if any) is a
word character — all `\b` needs to know about the left context — and the
remaining input.  At the start of the string the flag is `false` (no previous
character). -/
abbrev MState := Bool × List Char

/-- All ways `.*` can consume a (possibly empty) run of non-newline characters. -/
def starAnySplits : Bool → List Char → List MState
  | w, [] => [(w, [])]
  | w, c :: cs => (w, c :: cs) :: (if c == '\n' then [] else starAnySplits (isWordChar c) cs)

/-- All ways `\s*` can consume a (possibly empty) run of whitespace. -/
def starSpaceSplits : Bool → List Char → List MState
  | w, [] => [(w, [])]
  | w, c :: cs => (w, c :: cs) :: (if isSpaceChar c then starSpaceSplits (isWordChar c) cs else [])

/-- All ways `\w+` can consume a nonempty run of word characters. -/
def plusWordSplits : Bool → List Char → List MState
  | _, [] => []
  | _, c :: cs =>
      if isWordChar c then (isWordChar c, cs) :: plusWordSplits (isWordChar c) cs else []

/-- All states reachable by matching `r` at the current position
(case-insensitive, like `re.IGNORECASE` in `find_pattern_matches`). -/
def reMatch : RE → Bool → List Char → List MState
  | .eps, w, rest => [(w, rest)]
  | .chr _, _, [] => []
  | .chr c, _, d :: ds => if d.toLower == c.toLower then [(isWordChar d, ds)] else []
  | .anyc, _, [] => []
  | .anyc, _, d :: ds => if d == '\n' then [] else [(isWordChar d, ds)]
  | .spacec, _, [] => []
  | .spacec, _, d :: ds => if isSpaceChar d then [(isWordChar d, ds)] else []
  | .wb, w, rest =>
      let after := match rest with | [] => false | d :: _ => isWordChar d
      if w != after then [(w, rest)] else []
  | .seq a b, w, rest => (reMatch a w rest).flatMap (fun s => reMatch b s.1 s.2)
  | .alt a b, w, rest => reMatch a w rest ++ reMatch b w rest
  | .opt r, w, rest => (w, rest) :: reMatch r w rest
  | .starAny, w, rest => starAnySplits w rest
  | .starSpace, w, rest => starSpaceSplits w rest
  | .plusWord, w, rest => plusWordSplits w rest

/-- Unanchored search: does `r` match starting at some position of the input? -/
def reSearchAux (r : RE) : Bool → List Char → Bool
  | w, [] => !(reMatch r w []).isEmpty
  | w, c :: cs => !(reMatch r w (c :: cs)).isEmpty || reSearchAux r (isWordChar c) cs

/-- Python's `re.findall(pattern, text, re.IGNORECASE)` is nonempty. -/
def reSearch (r : RE) (text : String) : Bool :=
  reSearchAux r false text.data

/-- The word-character flag after scanning a list of characters: the flag the
search loop carries once this prefix has been consumed. -/
def flagAfter (w : Bool) : List Char → Bool
  | [] => w
  | c :: cs => flagAfter (isWordChar c) cs

/-- The first character of a context, if any, is not a word character (the
empty context qualifies).  Appending such a context to a text cannot destroy
a word boundary at the text's end. -/
def extHeadNonword : List Char → Prop
  | [] => True
  | c :: _ => isWordChar c = false

/-- A literal string as a regex. -/
def lit (s : String) : RE :=
  s.data.foldr (fun c r => RE.seq (.chr c) r) .eps

/-- Alternation of a nonempty list of regexes. -/
def alts : List RE → RE
  | [] => .eps
  | [r] => r
  | r :: rs => .alt r (alts rs)

/-- Sequencing of a list of regexes. -/
def seqs : List RE → RE
  | [] => .eps
  | [r] => r
  | r :: rs => .seq r (seqs rs)

/-- The shape `\b( ... | ... )\b` of most source patterns. -/
def wordAlts (ws : List RE) : RE :=
  seqs [.wb, alts ws, .wb]

/-! ### The static pattern libraries

`DETECTION_PATTERNS` and `DOCUMENTATION_MARKERS` from `src/core/validator.py`:
each marker name maps to the list of its source regexes, translated rule for
rule into `RE`. -/

/-- Keyword patterns for detecting error markers (`DETECTION_PATTERNS`). -/
def DETECTION_PATTERNS : List (String × List RE) := [
  ("allergy_mentioned", [wordAlts [lit "allerg", lit "allergic", lit "reaction",
      lit "rash", lit "hives", lit "anaphyla", lit "swelling"]]),
  ("penicillin_class", [wordAlts [lit "amoxicillin", lit "augmentin", lit "penicillin",
      lit "ampicillin", seqs [lit "amox", .opt (.alt (.chr '-') .spacec), lit "clav"]]]),
  ("prescription_given", [wordAlts [lit "prescri", lit "pharmacy", lit "i'll send",
      lit "pick up", seqs [lit "take ", .starAny, lit " times"], lit "twice daily",
      lit "once daily", lit "mg"]]),
  ("red_flag_symptom", [
      wordAlts [lit "letharg", lit "floppy", lit "won't eat", lit "not feeding",
        lit "bulging fontanel", lit "stiff neck", lit "petechial", lit "purple spots"],
      wordAlts [lit "difficulty breathing", lit "turning blue", lit "unresponsive",
        lit "seizure", lit "convulsion"],
      wordAlts [lit "projectile vomit", lit "blood in stool", lit "bloody diarrhea"]]),
  ("inadequate_response", [wordAlts [lit "nothing to worry", lit "probably fine",
      lit "just a", lit "don't worry", lit "it's normal", lit "all kids get"]]),
  ("interruption_pattern", [
      seqs [alts [lit "â€”", lit "..."], .starSpace, alts [lit "doctor", lit "Dr."]],
      seqs [lit "parent:", .starAny, lit "..."]]),
  ("jargon_used", [
      wordAlts [lit "bilateral", lit "prn", lit "prophylaxis", lit "empiric",
        lit "febrile", lit "otitis media", lit "URI", lit "BID", lit "TID", lit "QID"],
      wordAlts [lit "erythematous", lit "tympanic", lit "pharyngeal", lit "rhinorrhea",
        lit "effusion", lit "afebrile"]]),
  ("parent_confusion", [wordAlts [lit "what does that mean", lit "i don't understand",
      lit "sorry?", lit "could you explain", lit "in english"]]),
  ("rushed_encounter", [
      wordAlts [lit "next patient", lit "wrap this up", lit "got to go",
        lit "running behind", lit "quickly"],
      wordAlts [lit "anything else? no?", lit "okay you're all set"]]),
  ("concern_dismissed", [
      wordAlts [lit "overreact", lit "you're worried about nothing", lit "it's fine",
        lit "not a big deal"],
      wordAlts [seqs [lit "all ", alts [lit "kids", lit "babies", lit "children"],
          lit " get"], lit "very common", lit "see this all the time"]]),
  ("allergies_not_asked", []),
  ("meds_not_reviewed", []),
  ("missing_follow_up", [])]

/-- Words that indicate proper documentation (`DOCUMENTATION_MARKERS`). -/
def DOCUMENTATION_MARKERS : List (String × List RE) := [
  ("allergies_asked", [wordAlts [lit "any allergies", lit "allergic to anything",
      lit "allergy"]]),
  ("meds_reviewed", [wordAlts [lit "current medication", lit "taking any",
      lit "on any medication", lit "medication list"]]),
  ("follow_up_given", [wordAlts [lit "come back", lit "follow up", lit "call if",
      lit "return if", lit "watch for", seqs [lit "bring ", .starAny, lit " back"]]])]

/-- `DETECTION_PATTERNS[key]` (every access in the source uses a present key). -/
def dpat (k : String) : List RE :=
  (DETECTION_PATTERNS.lookup k).getD []

/-- `DOCUMENTATION_MARKERS[key]`. -/
def dmark (k : String) : List RE :=
  (DOCUMENTATION_MARKERS.lookup k).getD []

/-- The marker names the static pattern libraries define: the keys of
`DETECTION_PATTERNS` and `DOCUMENTATION_MARKERS`. -/
def knownMarkerNames : List String :=
  DETECTION_PATTERNS.map Prod.fst ++ DOCUMENTATION_MARKERS.map Prod.fst

/-! ### Transcript accessors -/

/-- One line of a generated script: a speaker role and its spoken text.  The
source passes dialogue lines as dicts with `speaker`, `text` and an optional
prosody `direction`; the validation core reads only `speaker` and `text`
(with `""` defaults), so the unused `direction` field is elided. -/
structure Turn where
  speaker : String
  text : String
deriving DecidableEq, Repr

/-- Python's `str.lower()`. -/
def strLower (s : String) : String :=
  ⟨s.data.map Char.toLower⟩

/-- Python's `" ".join(pieces)`. -/
def joinSpace : List String → String
  | [] => ""
  | [s] => s
  | s :: rest => s ++ " " ++ joinSpace rest

/-- `get_full_text`: combine all script text into one searchable string. -/
def get_full_text (script : List Turn) : String :=
  joinSpace (script.map (fun line => strLower line.text))

/-- `get_speaker_text`: text from a specific speaker. -/
def get_speaker_text (script : List Turn) (speaker : String) : String :=
  joinSpace
    ((script.filter (fun line => strLower line.speaker == strLower speaker)).map
      (fun line => strLower line.text))

/-- `find_pattern_matches(text, patterns)` is nonempty: some pattern of the
list matches somewhere in the text.  (The source returns the list of matched
snippets; every consumer tests only `if matches:` or `len(matches) >= 1`.) -/
def has_pattern_match (text : String) (patterns : List RE) : Bool :=
  patterns.any (fun r => reSearch r text)

/-! ### Validation verdicts and the per-defect detectors -/

/-- `ValidationResult`: result of validating an error injection. -/
structure ValidationResult where
  error_type : String
  markers_found : List String
  markers_expected : List String
  confidence : String
  evidence : List String
  likely_present : Bool
deriving DecidableEq, Repr

/-- `validate_missed_allergy`. -/
def validate_missed_allergy (script : List Turn) : ValidationResult :=
  let parent_text := get_speaker_text script "parent"
  let doctor_text := get_speaker_text script "doctor"
  let allergyB := has_pattern_match parent_text (dpat "allergy_mentioned")
  let drugB := has_pattern_match doctor_text (dpat "penicillin_class")
  let rxB := has_pattern_match doctor_text (dpat "prescription_given")
  let markers_found :=
    (if allergyB then ["allergy_mentioned"] else []) ++
    (if drugB then ["conflicting_prescription"] else []) ++
    (if rxB then ["prescription_given"] else [])
  let evidence :=
    (if allergyB then ["Allergy mentioned"] else []) ++
    (if drugB then ["Penicillin-class prescribed"] else [])
  let likely_present :=
    markers_found.contains "allergy_mentioned" &&
    markers_found.contains "conflicting_prescription"
  let confidence :=
    if likely_present && drugB then "high"
    else if markers_found.contains "allergy_mentioned" then "medium"
    else "low"
  { error_type := "missed-allergy"
    markers_found := markers_found
    markers_expected := ["allergy_mentioned", "conflicting_prescription",
      "no_allergy_documentation"]
    confidence := confidence
    evidence := evidence
    likely_present := likely_present }

/-- `validate_ignored_red_flag`. -/
def validate_ignored_red_flag (script : List Turn) : ValidationResult :=
  let parent_text := get_speaker_text script "parent"
  let doctor_text := get_speaker_text script "doctor"
  let rfB := has_pattern_match parent_text (dpat "red_flag_symptom")
  let inadB := has_pattern_match doctor_text (dpat "inadequate_response")
  let markers_found :=
    (if rfB then ["red_flag_symptom"] else []) ++
    (if inadB then ["inadequate_response"] else [])
  let evidence :=
    (if rfB then ["Red flag symptoms"] else []) ++
    (if inadB then ["Dismissive response"] else [])
  let likely_present :=
    markers_found.contains "red_flag_symptom" &&
    markers_found.contains "inadequate_response"
  { error_type := "ignored-red-flag"
    markers_found := markers_found
    markers_expected := ["red_flag_symptom", "inadequate_response", "no_escalation"]
    confidence := if likely_present then "high"
      else if !markers_found.isEmpty then "medium" else "low"
    evidence := evidence
    likely_present := likely_present }

/-- `validate_rushed`. -/
def validate_rushed (script : List Turn) : ValidationResult :=
  let doctor_text := get_speaker_text script "doctor"
  let rushedB := has_pattern_match doctor_text (dpat "rushed_encounter")
  let markers_found :=
    (if rushedB then ["rushed_encounter"] else []) ++
    (if script.length < 20 then ["short_encounter"] else [])
  let evidence :=
    (if rushedB then ["Rushed language"] else []) ++
    (if script.length < 20 then ["Only few dialogue lines"] else [])
  let likely_present := markers_found.contains "rushed_encounter"
  { error_type := "rushed"
    markers_found := markers_found
    markers_expected := ["rushed_encounter", "questions_unanswered",
      "incomplete_assessment"]
    confidence := if 2 ≤ markers_found.length then "high"
      else if !markers_found.isEmpty then "medium" else "low"
    evidence := evidence
    likely_present := likely_present }

/-- `validate_dismissive`. -/
def validate_dismissive (script : List Turn) : ValidationResult :=
  let doctor_text := get_speaker_text script "doctor"
  let dismissB := has_pattern_match doctor_text (dpat "concern_dismissed")
  let markers_found := if dismissB then ["concern_dismissed"] else []
  let evidence := if dismissB then ["Dismissive language"] else []
  let likely_present := markers_found.contains "concern_dismissed"
  { error_type := "dismissive"
    markers_found := markers_found
    markers_expected := ["concern_dismissed", "empathy_lacking", "condescending_tone"]
    confidence := if likely_present then "high" else "low"
    evidence := evidence
    likely_present := likely_present }

/-- `validate_jargon`. -/
def validate_jargon (script : List Turn) : ValidationResult :=
  let doctor_text := get_speaker_text script "doctor"
  let parent_text := get_speaker_text script "parent"
  let jargonB := has_pattern_match doctor_text (dpat "jargon_used")
  let confusionB := has_pattern_match parent_text (dpat "parent_confusion")
  let markers_found :=
    (if jargonB then ["jargon_used"] else []) ++
    (if confusionB then ["parent_confusion"] else [])
  let evidence :=
    (if jargonB then ["Jargon terms"] else []) ++
    (if confusionB then ["Parent confused"] else [])
  let likely_present := markers_found.contains "jargon_used"
  { error_type := "used-jargon"
    markers_found := markers_found
    markers_expected := ["jargon_used", "parent_confusion", "no_clarification"]
    confidence := if 2 ≤ markers_found.length then "high"
      else if !markers_found.isEmpty then "medium" else "low"
    evidence := evidence
    likely_present := likely_present }

/-- `validate_incomplete_history` (documentation markers detected by absence). -/
def validate_incomplete_history (script : List Turn) : ValidationResult :=
  let doctor_text := get_speaker_text script "doctor"
  let allergiesAskedB := has_pattern_match doctor_text (dmark "allergies_asked")
  let medsAskedB := has_pattern_match doctor_text (dmark "meds_reviewed")
  let markers_found :=
    (if !allergiesAskedB then ["allergies_not_asked"] else []) ++
    (if !medsAskedB then ["meds_not_reviewed"] else [])
  let evidence :=
    (if !allergiesAskedB then ["No allergy question found"] else []) ++
    (if !medsAskedB then ["No medication review found"] else [])
  let likely_present := 1 ≤ markers_found.length
  { error_type := "incomplete-history"
    markers_found := markers_found
    markers_expected := ["missing_history_elements", "allergies_not_asked",
      "meds_not_reviewed"]
    confidence := if 2 ≤ markers_found.length then "high"
      else if !markers_found.isEmpty then "medium" else "low"
    evidence := evidence
    likely_present := likely_present }

/-- `validate_no_follow_up`. -/
def validate_no_follow_up (script : List Turn) : ValidationResult :=
  let doctor_text := get_speaker_text script "doctor"
  let followUpB := has_pattern_match doctor_text (dmark "follow_up_given")
  let markers_found := if !followUpB then ["missing_follow_up"] else []
  let evidence := if !followUpB then ["No follow-up instructions found"] else []
  let likely_present := markers_found.contains "missing_follow_up"
  { error_type := "no-follow-up-plan"
    markers_found := markers_found
    markers_expected := ["missing_follow_up", "no_return_precautions",
      "vague_instructions"]
    confidence := if likely_present then "high" else "low"
    evidence := evidence
    likely_present := likely_present }

/-- The inline lambda registered for `"interrupted-patient"` in `VALIDATORS`:
`lambda s: ValidationResult("interrupted-patient", [], [], "medium", [], False)`. -/
def validate_interrupted (_script : List Turn) : ValidationResult :=
  { error_type := "interrupted-patient"
    markers_found := []
    markers_expected := []
    confidence := "medium"
    evidence := []
    likely_present := false }

/-! ### Aggregation (`validate_error_injection`, `validation_summary`) -/

/-- `ErrorSpec` from `src/core/input_parser.py`: specification for an error to
inject. -/
structure ErrorSpec where
  category : String
  error_type : String
  severity : String := "moderate"
deriving DecidableEq, Repr

/-- Assignment `m[k] = v` on a Python dict kept as an insertion-ordered
association list: an existing key keeps its position and gets the new value,
a new key is appended at the end. -/
def dictInsert {V : Type} (m : List (String × V)) (k : String) (v : V) :
    List (String × V) :=
  if m.any (fun p => p.1 == k) then
    m.map (fun p => if p.1 == k then (k, v) else p)
  else m ++ [(k, v)]

/-- `VALIDATORS`: the validator dispatch table. -/
def VALIDATORS : List (String × (List Turn → ValidationResult)) := [
  ("missed-allergy", validate_missed_allergy),
  ("missed-diagnosis", validate_ignored_red_flag),
  ("ignored-red-flag", validate_ignored_red_flag),
  ("wrong-medication", validate_missed_allergy),
  ("interrupted-patient", validate_interrupted),
  ("used-jargon", validate_jargon),
  ("dismissive", validate_dismissive),
  ("rushed", validate_rushed),
  ("incomplete-history", validate_incomplete_history),
  ("no-follow-up-plan", validate_no_follow_up),
  ("missing-med-reconciliation", validate_incomplete_history)]

/-- The body of the `for spec in error_specs` loop of
`validate_error_injection`: dispatch to the registered validator, or record
the `"unknown"`-confidence verdict when no validator is registered for the
requested type (the source never raises for an unrecognized type). -/
def validateStep (script : List Turn) (results : List (String × ValidationResult))
    (spec : ErrorSpec) : List (String × ValidationResult) :=
  match VALIDATORS.lookup spec.error_type with
  | some validator => dictInsert results spec.error_type (validator script)
  | none =>
      dictInsert results spec.error_type
        { error_type := spec.error_type
          markers_found := []
          markers_expected := []
          confidence := "unknown"
          evidence := ["No validator available for this error type"]
          likely_present := false }

/-- `validate_error_injection`, as the fold of its loop body over the
requested error specs. -/
def validate_error_injection (script : List Turn) (error_specs : List ErrorSpec) :
    List (String × ValidationResult) :=
  error_specs.foldl (validateStep script) []

/-- `validation_summary`'s returned dict, as a structure (the nested
`details` dict keeps, per error type, `likely_present`, `confidence` and
`evidence`). -/
structure ValidationSummary where
  total_errors_requested : Nat
  high_confidence_detected : Nat
  likely_present : Nat
  success_rate : ℚ
  details : List (String × (Bool × String × List String))
deriving DecidableEq, Repr

/-- `validation_summary`: generate summary of validation results.  Python's
true division is modelled over `ℚ`; the source guards the zero-total case
explicitly (`likely_present / total if total > 0 else 0`). -/
def validation_summary (results : List (String × ValidationResult)) :
    ValidationSummary :=
  let total := results.length
  let high := (results.filter (fun p => p.2.confidence == "high")).length
  let likely := (results.filter (fun p => p.2.likely_present)).length
  { total_errors_requested := total
    high_confidence_detected := high
    likely_present := likely
    success_rate := if 0 < total then (likely : ℚ) / (total : ℚ) else 0
    details := results.map (fun p => (p.1, (p.2.likely_present, p.2.confidence, p.2.evidence))) }

/-! ### The encounter descriptor (`src/core/input_parser.py`) -/

/-- `EncounterType`. -/
inductive EncounterType where
  | ACUTE
  | WELL_CHILD
  | MENTAL_HEALTH
  | FOLLOW_UP
deriving DecidableEq, Repr

/-- `ParticipantConfig`. -/
inductive ParticipantConfig where
  | PARENT_INFANT
  | PARENT_CHILD
  | TWO_PARENTS_CHILD
  | PARENT_FUSSY_TODDLER
deriving DecidableEq, Repr

/-- `PatientProfile`, reduced to the fields the validation/inference core
reads (`infer_targets` only reaches `age` through `get_patient_age`; the
remaining profile fields concern prompt construction, which is out of
scope). -/
structure PatientProfile where
  name : String
  age : String
  sex : String
deriving DecidableEq, Repr

/-- `EncounterSpec`: complete specification for generating an encounter. -/
structure EncounterSpec where
  encounter_type : EncounterType
  chief_complaint : String := ""
  patient_name : String := ""
  patient_age : String := ""
  patient_sex : String := ""
  patient_profile : Option PatientProfile := none
  participants : ParticipantConfig := .PARENT_INFANT
  parent_style : String := "concerned"
  doctor_style : String := "warm, thorough"
  doctor_gender : String := "female"
  errors : List ErrorSpec := []
  duration_tier : String := "medium"
  targets : List String := []
deriving Repr

/-- `EncounterSpec.get_patient_age`: profile age if a profile is present, else
the directly specified age, with `"12 months"` for an empty string (Python's
`self.patient_age or "12 months"`). -/
def EncounterSpec.get_patient_age (spec : EncounterSpec) : String :=
  match spec.patient_profile with
  | some profile => profile.age
  | none => if spec.patient_age == "" then "12 months" else spec.patient_age

/-- Python's `str.strip()`: whitespace removed from both ends. -/
def strTrim (s : String) : String :=
  ⟨((s.data.dropWhile isSpaceChar).reverse.dropWhile isSpaceChar).reverse⟩

/-- Python's `str.startswith(pre)`. -/
def strStartsWith (s pre : String) : Bool :=
  pre.data.isPrefixOf s.data

/-- The numeric value of a digit run. -/
def digitsVal (cs : List Char) : Int :=
  cs.foldl (fun acc c => acc * 10 + ((c.toNat : Int) - 48)) 0

/-- Consume an exact literal from the front of the input, returning the rest. -/
def dropLit : List Char → List Char → Option (List Char)
  | [], rest => some rest
  | _, [] => none
  | c :: cs, d :: ds => if d == c then dropLit cs ds else none

/-- `re.match(r"(\d+)\s*(unit alternatives)\b", s)`: leading digits, optional
whitespace, one of the unit spellings, and a word boundary after it.  Returns
the number on success. -/
def tryUnit (s : List Char) (units : List String) : Option Int :=
  let ds := s.takeWhile Char.isDigit
  let rest1 := s.dropWhile Char.isDigit
  if ds.isEmpty then none
  else
    let rest2 := rest1.dropWhile isSpaceChar
    if units.any (fun u =>
        match dropLit u.data rest2 with
        | some after =>
            match after with
            | [] => true
            | c :: _ => !isWordChar c
        | none => false)
    then some (digitsVal ds) else none

/-- Python's `int(s)` on an already stripped, lowered string: optional sign
followed by digits only. -/
def parseIntAll (cs : List Char) : Option Int :=
  let signRest : Int × List Char :=
    match cs with
    | '-' :: r => (-1, r)
    | '+' :: r => (1, r)
    | r => (1, r)
  if signRest.2.isEmpty then none
  else if signRest.2.all Char.isDigit then some (signRest.1 * digitsVal signRest.2)
  else none

/-- `parse_age_string`: parse an age string into (months, display string);
unparseable input falls back to `(12, the stripped string)`. -/
def parse_age_string (age_str : String) : Int × String :=
  let s := strTrim (strLower age_str)
  let cs := s.data
  match tryUnit cs ["months", "month", "mo", "m"] with
  | some n => (n, if n == 1 then "1 month" else toString n ++ " months")
  | none =>
  match tryUnit cs ["years", "year", "yo", "y"] with
  | some n => (n * 12, if n == 1 then "1 year" else toString n ++ " years")
  | none =>
  match tryUnit cs ["weeks", "week", "wk", "w"] with
  | some n => (0, if n == 1 then "1 week" else toString n ++ " weeks")
  | none =>
  match tryUnit cs ["days", "day", "d"] with
  | some n => (0, if n == 1 then "1 day" else toString n ++ " days")
  | none =>
  match parseIntAll cs with
  | some n => (n, toString n ++ " months")
  | none => (12, s)

/-! ### Target inference (`infer_targets`) -/

/-- `TARGET_PATTERNS`: content patterns for target inference. -/
def TARGET_PATTERNS : List (String × List RE) := [
  ("vaccine_counseling", [wordAlts [lit "vaccine", lit "immunization", lit "shot",
      lit "mmr", lit "dtap", lit "hep", lit "polio", lit "varicella"]]),
  ("antibiotic_stewardship", [wordAlts [lit "antibiotic", lit "amoxicillin",
      lit "azithromycin", lit "cephalosporin", lit "penicillin"]]),
  ("pain_management", [wordAlts [lit "tylenol", lit "motrin", lit "ibuprofen",
      lit "acetaminophen", lit "pain medication"]]),
  ("disposition_decision", [wordAlts [lit "admit", lit "hospital", lit "emergency",
      lit "er", lit "urgent care", lit "iv fluids", lit "observation"]]),
  ("diagnostic_workup", [wordAlts [lit "x-ray", lit "ct scan", lit "mri",
      lit "ultrasound", lit "blood test", lit "urine", lit "lumbar puncture",
      lit "culture"]]),
  ("referral_coordination", [wordAlts [lit "refer", lit "specialist", lit "see a",
      lit "appointment with", seqs [lit "pediatric ", .plusWord, lit "ologist"]]]),
  ("social_determinants", [wordAlts [lit "divorced", lit "custody", lit "daycare",
      lit "school", lit "housing", lit "food insecurity", lit "homeless"]]),
  ("mental_health_screening", [wordAlts [lit "anxiety", lit "depression", lit "stress",
      lit "worried", lit "sad", lit "suicide", lit "self-harm", lit "cutting"]]),
  ("substance_screening", [wordAlts [lit "alcohol", lit "drugs", lit "vaping",
      lit "smoking", lit "marijuana", lit "substance"]]),
  ("safety_screening", [wordAlts [lit "abuse", lit "neglect", lit "hurt", lit "hit",
      lit "safe at home", lit "gun", lit "firearm", lit "pool", lit "car seat"]]),
  ("vaccine_hesitancy", [wordAlts [lit "concerned about vaccine", lit "not sure about",
      lit "worried about shot", lit "anti-vax", lit "research"]]),
  ("parent_education", [wordAlts [lit "let me explain", lit "what this means",
      lit "here's what", lit "i want you to understand"]]),
  ("shared_decision_making", [wordAlts [lit "what do you think", lit "your preference",
      lit "option", lit "choice", lit "decide together"]]),
  ("feeding_assessment", [wordAlts [lit "nursing", lit "breastfeed", lit "formula",
      lit "bottle", lit "eating", lit "feeding", lit "appetite"]]),
  ("growth_monitoring", [wordAlts [lit "weight", lit "height", lit "percentile",
      lit "growth chart", lit "gaining", lit "growing"]]),
  ("developmental_milestone", [wordAlts [lit "walking", lit "talking", lit "words",
      lit "crawling", lit "sitting", lit "milestone", lit "development"]]),
  ("sleep_assessment", [wordAlts [lit "sleep", lit "sleeping", lit "nap",
      lit "bedtime", lit "waking", lit "night"]])]

/-- The target list `infer_targets` accumulates before its final
deduplication pass: encounter-type tags, age-band tags, participant tags,
content-pattern tags and defect-derived tags, appended in that order. -/
def inferTargetsRaw (spec : EncounterSpec) (script : List Turn) : List String :=
  let full_text := get_full_text script
  let age_months := (parse_age_string spec.get_patient_age).1
  (match spec.encounter_type with
   | .ACUTE => ["history_of_present_illness", "differential_diagnosis", "treatment_plan"]
   | .WELL_CHILD => ["growth_assessment", "developmental_screening",
       "anticipatory_guidance", "immunization_review"]
   | .MENTAL_HEALTH => ["psychosocial_assessment", "safety_screening",
       "therapeutic_rapport"]
   | .FOLLOW_UP => ["interval_history", "treatment_response", "care_plan_adjustment"]) ++
  (if age_months < 1 then ["neonatal_red_flags", "feeding_assessment", "jaundice_screening"]
   else if age_months < 3 then ["young_infant_fever_protocol"]
   else if age_months < 12 then ["infant_developmental_screening"]
   else if age_months < 24 then ["toddler_safety_counseling"]
   else if age_months < 60 then ["preschool_readiness"]
   else if age_months < 144 then ["school_age_wellness"]
   else ["adolescent_confidentiality", "risk_behavior_screening"]) ++
  (match spec.participants with
   | .TWO_PARENTS_CHILD => ["multi_caregiver_communication"]
   | .PARENT_FUSSY_TODDLER => ["challenging_exam_environment"]
   | _ => []) ++
  ((TARGET_PATTERNS.filter (fun p => has_pattern_match full_text p.2)).map Prod.fst) ++
  (spec.errors.flatMap (fun error =>
    if error.category == "clinical" then ["detect_" ++ error.error_type]
    else if error.category == "communication" then ["communication_quality"]
    else if error.category == "documentation" then ["documentation_completeness"]
    else []))

/-- The dedup loop at the end of `infer_targets`: a `seen` set and an output
list, keeping the first occurrence of each tag. -/
def dedupLoop (seen : List String) : List String → List String
  | [] => []
  | t :: ts => if t ∈ seen then dedupLoop seen ts else t :: dedupLoop (t :: seen) ts

/-- `infer_targets`: infer learning targets based on encounter specification
and content, deduplicated preserving first-seen order. -/
def infer_targets (spec : EncounterSpec) (script : List Turn) : List String :=
  dedupLoop [] (inferTargetsRaw spec script)

/-! ### Target categorization (`categorize_targets`) -/

/-- The `clinical` membership list of `categorize_targets` (defined inside
the source function; hoisted to module level unchanged). -/
def clinicalList : List String :=
  ["history_of_present_illness", "differential_diagnosis", "treatment_plan",
   "antibiotic_stewardship", "pain_management", "disposition_decision",
   "diagnostic_workup", "referral_coordination", "growth_assessment",
   "developmental_screening", "feeding_assessment", "immunization_review"]

/-- The `communication` membership list of `categorize_targets`. -/
def communicationList : List String :=
  ["anticipatory_guidance", "parent_education", "shared_decision_making",
   "therapeutic_rapport", "multi_caregiver_communication", "vaccine_hesitancy",
   "adolescent_confidentiality"]

/-- The `documentation` membership list of `categorize_targets`. -/
def documentationList : List String :=
  ["documentation_completeness", "interval_history", "care_plan_adjustment"]

/-- The `age_specific` membership list of `categorize_targets`. -/
def ageSpecificList : List String :=
  ["neonatal_red_flags", "young_infant_fever_protocol", "infant_developmental_screening",
   "toddler_safety_counseling", "preschool_readiness", "school_age_wellness",
   "risk_behavior_screening"]

/-- The six bucket lists `categorize_targets` accumulates. -/
structure TargetCategories where
  clinical_skills : List String
  communication : List String
  documentation : List String
  age_specific : List String
  content_specific : List String
  error_detection : List String
deriving DecidableEq, Repr

/-- The body of the `for target in targets` loop of `categorize_targets`:
the `detect_` prefix overrides everything, then the membership lists are
tried in order, and anything left goes to `content_specific`. -/
def categorizeStep (cats : TargetCategories) (target : String) : TargetCategories :=
  if strStartsWith target "detect_" then
    { cats with error_detection := cats.error_detection ++ [target] }
  else if target ∈ clinicalList then
    { cats with clinical_skills := cats.clinical_skills ++ [target] }
  else if target ∈ communicationList then
    { cats with communication := cats.communication ++ [target] }
  else if target ∈ documentationList then
    { cats with documentation := cats.documentation ++ [target] }
  else if target ∈ ageSpecificList then
    { cats with age_specific := cats.age_specific ++ [target] }
  else
    { cats with content_specific := cats.content_specific ++ [target] }

/-- `categorize_targets`: partition a target list into domains for reporting,
dropping the buckets that end up empty. -/
def categorize_targets (targets : List String) : List (String × List String) :=
  let cats := targets.foldl categorizeStep ⟨[], [], [], [], [], []⟩
  ([("clinical_skills", cats.clinical_skills),
    ("communication", cats.communication),
    ("documentation", cats.documentation),
    ("age_specific", cats.age_specific),
    ("content_specific", cats.content_specific),
    ("error_detection", cats.error_detection)]).filter (fun p => !p.2.isEmpty)

/-! ### Spec-side definitions

The next definitions follow the words of the specification, not the source;
the theorems below compare the source-derived functions against them. -/

/-- The spec's ordinal confidence combining function (spec section 4.3 step 4):
two-or-more corroborating markers give `high`, exactly one gives `medium`,
none gives `low`. -/
def specOrdinalConfidence (n : Nat) : String :=
  if 2 ≤ n then "high" else if n == 1 then "medium" else "low"

/-- The binary collapse the spec allows for defects with only one possible
marker: any marker gives `high`, none gives `low`. -/
def specBinaryConfidence (n : Nat) : String :=
  if 1 ≤ n then "high" else "low"

/-- The spec's confidence order (`low < medium < high`), as a rank. -/
def confRank (c : String) : Nat :=
  if c == "high" then 2 else if c == "medium" then 1 else 0

/-- The spec's routing rule for `categorize_targets` (spec section 4.6): a
literal `detect_` prefix always routes to `error_detection`, then the fixed
membership lists are consulted, and everything else is `content_specific`. -/
def targetRoute (t : String) : String :=
  if strStartsWith t "detect_" then "error_detection"
  else if t ∈ clinicalList then "clinical_skills"
  else if t ∈ communicationList then "communication"
  else if t ∈ documentationList then "documentation"
  else if t ∈ ageSpecificList then "age_specific"
  else "content_specific"

/-! ### Concrete transcripts and descriptors used as inputs below -/

/-- A transcript whose doctor text fires `penicillin_class` (via "augmentin")
and `prescription_given` (via "mg") while no parent turn mentions an allergy. -/
def cexMissedAllergyScript : List Turn :=
  [⟨"doctor", "augmentin 400 mg"⟩]

/-- The spec's Scenario A transcript: the parent reports an allergic reaction
and the doctor prescribes a penicillin-class drug. -/
def scenarioAScript : List Turn :=
  [⟨"parent", "she had a reaction to amoxicillin last year — got a rash"⟩,
   ⟨"doctor", "i'll prescribe augmentin"⟩]

/-- The spec's Scenario D encounter descriptor: well-child category, a
30-month-old patient, two parents plus child in the room, no requested
defects. -/
def scenarioDSpec : EncounterSpec :=
  { encounter_type := .WELL_CHILD
    chief_complaint := "well child check"
    patient_age := "30 months"
    participants := .TWO_PARENTS_CHILD
    errors := [] }

/-! ### Helper lemmas: the dedup loop -/

theorem mem_dedupLoop {a : String} : ∀ {seen l : List String},
    a ∈ dedupLoop seen l ↔ a ∈ l ∧ a ∉ seen := by
  intro seen l
  induction l generalizing seen with
  | nil => simp [dedupLoop]
  | cons t ts ih =>
      by_cases ht : t ∈ seen
      · simp only [dedupLoop, if_pos ht, ih, List.mem_cons]
        constructor
        · rintro ⟨h1, h2⟩; exact ⟨Or.inr h1, h2⟩
        · rintro ⟨h1 | h1, h2⟩
          · exact absurd (h1 ▸ ht) h2
          · exact ⟨h1, h2⟩
      · simp only [dedupLoop, if_neg ht, List.mem_cons, ih]
        constructor
        · rintro (rfl | ⟨h1, h2⟩)
          · exact ⟨Or.inl rfl, ht⟩
          · exact ⟨Or.inr h1, fun hs => h2 (Or.inr hs)⟩
        · rintro ⟨rfl | h1, h2⟩
          · exact Or.inl rfl
          · by_cases hat : a = t
            · exact Or.inl hat
            · exact Or.inr ⟨h1, fun h => h.elim hat h2⟩

theorem nodup_dedupLoop : ∀ (seen l : List String), (dedupLoop seen l).Nodup := by
  intro seen l
  induction l generalizing seen with
  | nil => simp [dedupLoop]
  | cons t ts ih =>
      by_cases ht : t ∈ seen
      · simpa [dedupLoop, if_pos ht] using ih seen
      · simp only [dedupLoop, if_neg ht]
        refine List.Nodup.cons ?_ (ih (t :: seen))
        intro hmem
        exact (mem_dedupLoop.1 hmem).2 (List.mem_cons_self t seen)

theorem dedupLoop_eq_nil_of_subset {seen l : List String}
    (h : ∀ x ∈ l, x ∈ seen) : dedupLoop seen l = [] := by
  induction l with
  | nil => rfl
  | cons t ts ih =>
      have ht : t ∈ seen := h t (List.mem_cons_self t ts)
      simp only [dedupLoop, if_pos ht]
      exact ih (fun x hx => h x (List.mem_cons_of_mem _ hx))

theorem dedupLoop_append_of_subset : ∀ (seen l₁ l₂ : List String),
    (∀ x ∈ l₂, x ∈ l₁ ∨ x ∈ seen) → dedupLoop seen (l₁ ++ l₂) = dedupLoop seen l₁ := by
  intro seen l₁ l₂ h
  induction l₁ generalizing seen with
  | nil =>
      simp only [List.nil_append, dedupLoop]
      exact dedupLoop_eq_nil_of_subset (fun x hx => (h x hx).resolve_left (by simp))
  | cons t ts ih =>
      by_cases ht : t ∈ seen
      · simp only [List.cons_append, dedupLoop, if_pos ht]
        refine ih seen (fun x hx => ?_)
        rcases h x hx with h1 | h1
        · rcases List.mem_cons.1 h1 with rfl | h2
          · exact Or.inr ht
          · exact Or.inl h2
        · exact Or.inr h1
      · simp only [List.cons_append, dedupLoop, if_neg ht]
        refine congrArg (t :: ·) (ih (t :: seen) (fun x hx => ?_))
        rcases h x hx with h1 | h1
        · rcases List.mem_cons.1 h1 with rfl | h2
          · exact Or.inr (List.mem_cons_self _ _)
          · exact Or.inl h2
        · exact Or.inr (List.mem_cons_of_mem _ h1)

theorem dedupLoop_eq_self_of_nodup : ∀ {seen l : List String},
    l.Nodup → (∀ x ∈ l, x ∉ seen) → dedupLoop seen l = l := by
  intro seen l hn hs
  induction l generalizing seen with
  | nil => rfl
  | cons t ts ih =>
      have ht : t ∉ seen := hs t (List.mem_cons_self t ts)
      simp only [dedupLoop, if_neg ht]
      refine congrArg (t :: ·) (ih (List.Nodup.of_cons hn) (fun x hx => ?_))
      intro hmem
      rcases List.mem_cons.1 hmem with rfl | h2
      · exact (List.nodup_cons.1 hn).1 hx
      · exact hs x (List.mem_cons_of_mem _ hx) h2

theorem pairwise_indexOf_dedupLoop : ∀ (l seen : List String),
    List.Pairwise (fun a b => l.indexOf a < l.indexOf b) (dedupLoop seen l) := by
  intro l
  induction l with
  | nil => intro seen; simp [dedupLoop]
  | cons t ts ih =>
      intro seen
      have shift : ∀ (s : List String), t ∈ s →
          List.Pairwise (fun a b => (t :: ts).indexOf a < (t :: ts).indexOf b)
            (dedupLoop s ts) := by
        intro s hts
        refine List.Pairwise.imp_of_mem ?_ (ih s)
        intro a b ha hb hab
        have hat : t ≠ a := fun he => (mem_dedupLoop.1 ha).2 (he ▸ hts)
        have hbt : t ≠ b := fun he => (mem_dedupLoop.1 hb).2 (he ▸ hts)
        rw [List.indexOf_cons_ne _ hat, List.indexOf_cons_ne _ hbt]
        exact Nat.succ_lt_succ hab
      by_cases ht : t ∈ seen
      · simpa [dedupLoop, if_pos ht] using shift seen ht
      · simp only [dedupLoop, if_neg ht]
        refine List.Pairwise.cons ?_ (shift (t :: seen) (List.mem_cons_self t seen))
        intro b hb
        have hbt : t ≠ b := fun he =>
          (mem_dedupLoop.1 hb).2 (he ▸ List.mem_cons_self t seen)
        rw [List.indexOf_cons_self, List.indexOf_cons_ne _ hbt]
        exact Nat.succ_pos _

/-! ### Helper lemmas: dict insertion and lookup -/

theorem lookup_map_replace {V : Type} (k : String) (v : V) : ∀ (m : List (String × V)),
    (m.map (fun p => if p.1 == k then (k, v) else p)).lookup k =
      if m.any (fun p => p.1 == k) then some v else none := by
  intro m
  induction m with
  | nil => simp
  | cons p ps ih =>
      obtain ⟨k1, v1⟩ := p
      by_cases hp : k1 = k
      · subst hp
        simp [List.lookup_cons]
      · have h1 : ((k1 : String) == k) = false := beq_eq_false_iff_ne.2 hp
        have h2 : (k == k1) = false := beq_eq_false_iff_ne.2 (Ne.symm hp)
        simp only [List.map_cons, List.any_cons, h1, Bool.false_or]
        simp [List.lookup_cons, hp, h2] at ih ⊢
        exact ih

theorem lookup_append_single {V : Type} (k : String) (v : V) : ∀ (m : List (String × V)),
    m.any (fun p => p.1 == k) = false → (m ++ [(k, v)]).lookup k = some v := by
  intro m
  induction m with
  | nil => intro; simp [List.lookup_cons]
  | cons p ps ih =>
      obtain ⟨k1, v1⟩ := p
      intro h
      simp only [List.any_cons, Bool.or_eq_false_iff] at h
      have hne : ¬ (k1 = k) := by simpa using h.1
      have hb : (k == k1) = false := beq_eq_false_iff_ne.2 (Ne.symm hne)
      have ih2 := ih h.2
      simp [List.cons_append, List.lookup_cons, hb] at ih2 ⊢
      exact ih2

theorem lookup_dictInsert_self {V : Type} (k : String) (v : V) (m : List (String × V)) :
    (dictInsert m k v).lookup k = some v := by
  unfold dictInsert
  by_cases h : m.any (fun p => p.1 == k) = true
  · rw [if_pos h, lookup_map_replace, if_pos h]
  · rw [if_neg h]
    refine lookup_append_single k v m ?_
    rw [← Bool.not_eq_true]
    exact h

theorem lookup_map_replace_ne {V : Type} (k k' : String) (v : V) (hne : k' ≠ k) :
    ∀ (m : List (String × V)),
    (m.map (fun p => if p.1 == k then (k, v) else p)).lookup k' = m.lookup k' := by
  intro m
  induction m with
  | nil => rfl
  | cons p ps ih =>
      obtain ⟨k1, v1⟩ := p
      by_cases hp : k1 = k
      · subst hp
        have hb : (k' == k1) = false := beq_eq_false_iff_ne.2 hne
        simp [List.lookup_cons, hb] at ih ⊢
        exact ih
      · have h1 : ((k1 : String) == k) = false := beq_eq_false_iff_ne.2 hp
        by_cases hk : k' = k1
        · subst hk
          simp [List.lookup_cons, hp, h1]
        · have hb : (k' == k1) = false := beq_eq_false_iff_ne.2 hk
          simp [List.lookup_cons, hp, h1, hb] at ih ⊢
          exact ih

theorem lookup_append_single_ne {V : Type} (k k' : String) (v : V) (hne : k' ≠ k) :
    ∀ (m : List (String × V)), (m ++ [(k, v)]).lookup k' = m.lookup k' := by
  intro m
  induction m with
  | nil =>
      have hb : (k' == k) = false := beq_eq_false_iff_ne.2 hne
      simp [List.lookup_cons, hb]
  | cons p ps ih =>
      obtain ⟨k1, v1⟩ := p
      by_cases hk : k' = k1
      · subst hk
        simp [List.cons_append, List.lookup_cons]
      · have hb : (k' == k1) = false := beq_eq_false_iff_ne.2 hk
        simp [List.cons_append, List.lookup_cons, hb] at ih ⊢
        exact ih

theorem lookup_dictInsert_ne {V : Type} (k k' : String) (v : V) (m : List (String × V))
    (hne : k' ≠ k) : (dictInsert m k v).lookup k' = m.lookup k' := by
  unfold dictInsert
  by_cases h : m.any (fun p => p.1 == k) = true
  · rw [if_pos h, lookup_map_replace_ne k k' v hne]
  · rw [if_neg h, lookup_append_single_ne k k' v hne]

/-! ### Helper lemmas: the aggregation fold -/

theorem validate_foldl_stable (script : List Turn) (t : String)
    (hnone : VALIDATORS.lookup t = none) :
    ∀ (specs : List ErrorSpec) (acc : List (String × ValidationResult)),
      acc.lookup t = some { error_type := t
                            markers_found := []
                            markers_expected := []
                            confidence := "unknown"
                            evidence := ["No validator available for this error type"]
                            likely_present := false } →
      (specs.foldl (validateStep script) acc).lookup t =
        some { error_type := t
               markers_found := []
               markers_expected := []
               confidence := "unknown"
               evidence := ["No validator available for this error type"]
               likely_present := false } := by
  intro specs
  induction specs with
  | nil => intro acc h; exact h
  | cons s rest ih =>
      intro acc h
      refine ih (validateStep script acc s) ?_
      by_cases hst : s.error_type = t
      · unfold validateStep
        rw [hst, hnone]
        exact lookup_dictInsert_self t _ acc
      · unfold validateStep
        cases hv : VALIDATORS.lookup s.error_type with
        | none =>
            rw [lookup_dictInsert_ne _ _ _ _ (fun he => hst he.symm)]
            exact h
        | some validator =>
            rw [lookup_dictInsert_ne _ _ _ _ (fun he => hst he.symm)]
            exact h

theorem validate_foldl_unknown (script : List Turn) (t : String)
    (hnone : VALIDATORS.lookup t = none) :
    ∀ (specs : List ErrorSpec) (acc : List (String × ValidationResult)),
      t ∈ specs.map ErrorSpec.error_type →
      (specs.foldl (validateStep script) acc).lookup t =
        some { error_type := t
               markers_found := []
               markers_expected := []
               confidence := "unknown"
               evidence := ["No validator available for this error type"]
               likely_present := false } := by
  intro specs
  induction specs with
  | nil => intro acc h; exact absurd h (List.not_mem_nil t)
  | cons s rest ih =>
      intro acc h
      rw [List.map_cons] at h
      by_cases hst : s.error_type = t
      · refine validate_foldl_stable script t hnone rest (validateStep script acc s) ?_
        unfold validateStep
        rw [hst, hnone]
        exact lookup_dictInsert_self t _ acc
      · rcases List.mem_cons.1 h with h1 | h1
        · exact absurd h1.symm hst
        · exact ih (validateStep script acc s) h1

/-! ### Claim C3: unknown defect types get an `unknown` verdict, never a failure -/

/-- C3: for every transcript and every defect-request list containing a type string
with no registered detector, `validate_error_injection` (a total function, so it
cannot raise) does not omit the entry: the returned mapping contains, for that
type, a verdict with empty `markers_found`, confidence `"unknown"`,
`likely_present = false`, and the explanatory evidence note. -/
theorem unknown_type_gets_unknown_verdict (script : List Turn)
    (error_specs : List ErrorSpec) (t : String)
    (hnone : VALIDATORS.lookup t = none)
    (hmem : t ∈ error_specs.map ErrorSpec.error_type) :
    (validate_error_injection script error_specs).lookup t =
      some { error_type := t
             markers_found := []
             markers_expected := []
             confidence := "unknown"
             evidence := ["No validator available for this error type"]
             likely_present := false } :=
  validate_foldl_unknown script t hnone error_specs [] hmem

/-- C3 witness: the aggregator on a concrete request list with the unregistered
type `"zzz"`. -/
theorem unknown_type_gets_unknown_verdict_witness :
    (validate_error_injection [] [{ category := "clinical", error_type := "zzz" }]).lookup "zzz" =
      some { error_type := "zzz"
             markers_found := []
             markers_expected := []
             confidence := "unknown"
             evidence := ["No validator available for this error type"]
             likely_present := false } :=
  unknown_type_gets_unknown_verdict [] [{ category := "clinical", error_type := "zzz" }]
    "zzz" rfl (by decide)

/-! ### Claim C5: the inferred-target list is deduplicated, order-preserving,
and a double run collapses to a single run -/

/-- C5: for every encounter spec and transcript, `infer_targets` returns a list
with no tag twice, lists the tags in the order of their first appearance in the
pre-dedup target sequence `inferTargetsRaw`, and deduplicating the concatenation
of two runs yields the same list as a single run. -/
theorem infer_targets_dedup_properties (spec : EncounterSpec) (script : List Turn) :
    (infer_targets spec script).Nodup ∧
    List.Pairwise (fun a b => (inferTargetsRaw spec script).indexOf a <
      (inferTargetsRaw spec script).indexOf b) (infer_targets spec script) ∧
    dedupLoop [] (infer_targets spec script ++ infer_targets spec script) =
      infer_targets spec script := by
  refine ⟨nodup_dedupLoop [] _, pairwise_indexOf_dedupLoop _ [], ?_⟩
  rw [dedupLoop_append_of_subset [] _ _ (fun x hx => Or.inl hx)]
  exact dedupLoop_eq_self_of_nodup (nodup_dedupLoop [] _)
    (fun x _ hx => (List.not_mem_nil x) hx)

/-! ### Claim C10: the interrupted-patient detector is a constant stub -/

/-- C10: the detector registered for `"interrupted-patient"` returns the same
constant verdict for every transcript — `markers_found` and `markers_expected`
empty, confidence `"medium"`, no evidence, `likely_present = false` — without
examining the transcript, so the `interruption_pattern` entries of the pattern
library are never consulted and this defect is never reported as present. -/
theorem interrupted_patient_constant_verdict :
    VALIDATORS.lookup "interrupted-patient" = some validate_interrupted ∧
    ∀ script : List Turn,
      validate_interrupted script =
        { error_type := "interrupted-patient"
          markers_found := []
          markers_expected := []
          confidence := "medium"
          evidence := []
          likely_present := false } :=
  ⟨rfl, fun _ => rfl⟩

/-! ### Helper lemmas: per-detector confidence and marker shapes -/

theorem missed_allergy_confidence_shape (s : List Turn) :
    (validate_missed_allergy s).confidence =
      (if "allergy_mentioned" ∈ (validate_missed_allergy s).markers_found ∧
          "conflicting_prescription" ∈ (validate_missed_allergy s).markers_found then "high"
       else if "allergy_mentioned" ∈ (validate_missed_allergy s).markers_found then "medium"
       else "low") := by
  by_cases h1 : has_pattern_match (get_speaker_text s "parent") (dpat "allergy_mentioned") = true <;>
  by_cases h2 : has_pattern_match (get_speaker_text s "doctor") (dpat "penicillin_class") = true <;>
  by_cases h3 : has_pattern_match (get_speaker_text s "doctor") (dpat "prescription_given") = true <;>
  simp [validate_missed_allergy, h1, h2, h3]

theorem missed_allergy_markers_sub (s : List Turn) :
    ∀ x ∈ (validate_missed_allergy s).markers_found,
      x = "allergy_mentioned" ∨ x = "conflicting_prescription" ∨ x = "prescription_given" := by
  intro x hx
  by_cases h1 : has_pattern_match (get_speaker_text s "parent") (dpat "allergy_mentioned") = true <;>
  by_cases h2 : has_pattern_match (get_speaker_text s "doctor") (dpat "penicillin_class") = true <;>
  by_cases h3 : has_pattern_match (get_speaker_text s "doctor") (dpat "prescription_given") = true <;>
  simp [validate_missed_allergy, h1, h2, h3] at hx <;> tauto

theorem red_flag_confidence_ordinal (s : List Turn) :
    (validate_ignored_red_flag s).confidence =
      specOrdinalConfidence (validate_ignored_red_flag s).markers_found.length := by
  by_cases h1 : has_pattern_match (get_speaker_text s "parent") (dpat "red_flag_symptom") = true <;>
  by_cases h2 : has_pattern_match (get_speaker_text s "doctor") (dpat "inadequate_response") = true <;>
  simp [validate_ignored_red_flag, specOrdinalConfidence, h1, h2]

theorem red_flag_markers_sub (s : List Turn) :
    ∀ x ∈ (validate_ignored_red_flag s).markers_found,
      x = "red_flag_symptom" ∨ x = "inadequate_response" := by
  intro x hx
  by_cases h1 : has_pattern_match (get_speaker_text s "parent") (dpat "red_flag_symptom") = true <;>
  by_cases h2 : has_pattern_match (get_speaker_text s "doctor") (dpat "inadequate_response") = true <;>
  simp [validate_ignored_red_flag, h1, h2] at hx <;> tauto

theorem rushed_confidence_ordinal (s : List Turn) :
    (validate_rushed s).confidence =
      specOrdinalConfidence (validate_rushed s).markers_found.length := by
  by_cases h1 : has_pattern_match (get_speaker_text s "doctor") (dpat "rushed_encounter") = true <;>
  by_cases h2 : s.length < 20 <;>
  simp [validate_rushed, specOrdinalConfidence, h1, h2]

theorem rushed_markers_sub (s : List Turn) :
    ∀ x ∈ (validate_rushed s).markers_found,
      x = "rushed_encounter" ∨ x = "short_encounter" := by
  intro x hx
  by_cases h1 : has_pattern_match (get_speaker_text s "doctor") (dpat "rushed_encounter") = true <;>
  by_cases h2 : s.length < 20 <;>
  simp [validate_rushed, h1, h2] at hx <;> tauto

theorem jargon_confidence_ordinal (s : List Turn) :
    (validate_jargon s).confidence =
      specOrdinalConfidence (validate_jargon s).markers_found.length := by
  by_cases h1 : has_pattern_match (get_speaker_text s "doctor") (dpat "jargon_used") = true <;>
  by_cases h2 : has_pattern_match (get_speaker_text s "parent") (dpat "parent_confusion") = true <;>
  simp [validate_jargon, specOrdinalConfidence, h1, h2]

theorem jargon_markers_sub (s : List Turn) :
    ∀ x ∈ (validate_jargon s).markers_found,
      x = "jargon_used" ∨ x = "parent_confusion" := by
  intro x hx
  by_cases h1 : has_pattern_match (get_speaker_text s "doctor") (dpat "jargon_used") = true <;>
  by_cases h2 : has_pattern_match (get_speaker_text s "parent") (dpat "parent_confusion") = true <;>
  simp [validate_jargon, h1, h2] at hx <;> tauto

theorem incomplete_history_confidence_ordinal (s : List Turn) :
    (validate_incomplete_history s).confidence =
      specOrdinalConfidence (validate_incomplete_history s).markers_found.length := by
  by_cases h1 : has_pattern_match (get_speaker_text s "doctor") (dmark "allergies_asked") = true <;>
  by_cases h2 : has_pattern_match (get_speaker_text s "doctor") (dmark "meds_reviewed") = true <;>
  simp [validate_incomplete_history, specOrdinalConfidence, h1, h2]

theorem incomplete_history_markers_sub (s : List Turn) :
    ∀ x ∈ (validate_incomplete_history s).markers_found,
      x = "allergies_not_asked" ∨ x = "meds_not_reviewed" := by
  intro x hx
  by_cases h1 : has_pattern_match (get_speaker_text s "doctor") (dmark "allergies_asked") = true <;>
  by_cases h2 : has_pattern_match (get_speaker_text s "doctor") (dmark "meds_reviewed") = true <;>
  simp [validate_incomplete_history, h1, h2] at hx <;> tauto

theorem dismissive_confidence_binary (s : List Turn) :
    (validate_dismissive s).confidence =
      specBinaryConfidence (validate_dismissive s).markers_found.length := by
  by_cases h1 : has_pattern_match (get_speaker_text s "doctor") (dpat "concern_dismissed") = true <;>
  simp [validate_dismissive, specBinaryConfidence, h1]

theorem dismissive_markers_sub (s : List Turn) :
    ∀ x ∈ (validate_dismissive s).markers_found, x = "concern_dismissed" := by
  intro x hx
  by_cases h1 : has_pattern_match (get_speaker_text s "doctor") (dpat "concern_dismissed") = true <;>
  simp [validate_dismissive, h1] at hx <;> tauto

theorem no_follow_up_confidence_binary (s : List Turn) :
    (validate_no_follow_up s).confidence =
      specBinaryConfidence (validate_no_follow_up s).markers_found.length := by
  by_cases h1 : has_pattern_match (get_speaker_text s "doctor") (dmark "follow_up_given") = true <;>
  simp [validate_no_follow_up, specBinaryConfidence, h1]

theorem no_follow_up_markers_sub (s : List Turn) :
    ∀ x ∈ (validate_no_follow_up s).markers_found, x = "missing_follow_up" := by
  intro x hx
  by_cases h1 : has_pattern_match (get_speaker_text s "doctor") (dmark "follow_up_given") = true <;>
  simp [validate_no_follow_up, h1] at hx <;> tauto

/-! ### Helper lemma: inverting a dispatch-table lookup -/

theorem validators_lookup_inv (t : String) (v : List Turn → ValidationResult)
    (hv : VALIDATORS.lookup t = some v) :
    (t = "missed-allergy" ∧ v = validate_missed_allergy) ∨
    (t = "missed-diagnosis" ∧ v = validate_ignored_red_flag) ∨
    (t = "ignored-red-flag" ∧ v = validate_ignored_red_flag) ∨
    (t = "wrong-medication" ∧ v = validate_missed_allergy) ∨
    (t = "interrupted-patient" ∧ v = validate_interrupted) ∨
    (t = "used-jargon" ∧ v = validate_jargon) ∨
    (t = "dismissive" ∧ v = validate_dismissive) ∨
    (t = "rushed" ∧ v = validate_rushed) ∨
    (t = "incomplete-history" ∧ v = validate_incomplete_history) ∨
    (t = "no-follow-up-plan" ∧ v = validate_no_follow_up) ∨
    (t = "missing-med-reconciliation" ∧ v = validate_incomplete_history) := by
  by_cases h1 : t = "missed-allergy"
  · subst h1; exact Or.inl ⟨rfl, (Option.some.inj hv).symm⟩
  by_cases h2 : t = "missed-diagnosis"
  · subst h2; exact Or.inr (Or.inl ⟨rfl, (Option.some.inj hv).symm⟩)
  by_cases h3 : t = "ignored-red-flag"
  · subst h3; exact Or.inr (Or.inr (Or.inl ⟨rfl, (Option.some.inj hv).symm⟩))
  by_cases h4 : t = "wrong-medication"
  · subst h4; exact Or.inr (Or.inr (Or.inr (Or.inl ⟨rfl, (Option.some.inj hv).symm⟩)))
  by_cases h5 : t = "interrupted-patient"
  · subst h5
    exact Or.inr (Or.inr (Or.inr (Or.inr (Or.inl ⟨rfl, (Option.some.inj hv).symm⟩))))
  by_cases h6 : t = "used-jargon"
  · subst h6
    exact Or.inr (Or.inr (Or.inr (Or.inr (Or.inr (Or.inl ⟨rfl,
      (Option.some.inj hv).symm⟩)))))
  by_cases h7 : t = "dismissive"
  · subst h7
    exact Or.inr (Or.inr (Or.inr (Or.inr (Or.inr (Or.inr (Or.inl ⟨rfl,
      (Option.some.inj hv).symm⟩))))))
  by_cases h8 : t = "rushed"
  · subst h8
    exact Or.inr (Or.inr (Or.inr (Or.inr (Or.inr (Or.inr (Or.inr (Or.inl ⟨rfl,
      (Option.some.inj hv).symm⟩)))))))
  by_cases h9 : t = "incomplete-history"
  · subst h9
    exact Or.inr (Or.inr (Or.inr (Or.inr (Or.inr (Or.inr (Or.inr (Or.inr (Or.inl ⟨rfl,
      (Option.some.inj hv).symm⟩))))))))
  by_cases h10 : t = "no-follow-up-plan"
  · subst h10
    exact Or.inr (Or.inr (Or.inr (Or.inr (Or.inr (Or.inr (Or.inr (Or.inr (Or.inr
      (Or.inl ⟨rfl, (Option.some.inj hv).symm⟩)))))))))
  by_cases h11 : t = "missing-med-reconciliation"
  · subst h11
    exact Or.inr (Or.inr (Or.inr (Or.inr (Or.inr (Or.inr (Or.inr (Or.inr (Or.inr
      (Or.inr ⟨rfl, (Option.some.inj hv).symm⟩)))))))))
  exfalso
  have b1 : (t == "missed-allergy") = false := beq_eq_false_iff_ne.2 h1
  have b2 : (t == "missed-diagnosis") = false := beq_eq_false_iff_ne.2 h2
  have b3 : (t == "ignored-red-flag") = false := beq_eq_false_iff_ne.2 h3
  have b4 : (t == "wrong-medication") = false := beq_eq_false_iff_ne.2 h4
  have b5 : (t == "interrupted-patient") = false := beq_eq_false_iff_ne.2 h5
  have b6 : (t == "used-jargon") = false := beq_eq_false_iff_ne.2 h6
  have b7 : (t == "dismissive") = false := beq_eq_false_iff_ne.2 h7
  have b8 : (t == "rushed") = false := beq_eq_false_iff_ne.2 h8
  have b9 : (t == "incomplete-history") = false := beq_eq_false_iff_ne.2 h9
  have b10 : (t == "no-follow-up-plan") = false := beq_eq_false_iff_ne.2 h10
  have b11 : (t == "missing-med-reconciliation") = false := beq_eq_false_iff_ne.2 h11
  unfold VALIDATORS at hv
  simp only [List.lookup_cons, b1, b2, b3, b4, b5, b6, b7, b8, b9, b10, b11,
    List.lookup_nil] at hv
  exact Option.noConfusion hv

/-! ### Claim C1: how marker counts combine into confidence -/

/-- C1 counterexample: the registered missed-allergy detector can find two
markers (`conflicting_prescription` and `prescription_given`) and still return
confidence `"low"`, so confidence is not the claimed ordinal function of how
many markers appear in `markers_found`. -/
theorem confidence_not_ordinal_cex :
    VALIDATORS.lookup "missed-allergy" = some validate_missed_allergy ∧
    (validate_missed_allergy cexMissedAllergyScript).markers_found.length = 2 ∧
    (validate_missed_allergy cexMissedAllergyScript).confidence = "low" :=
  ⟨rfl, by decide, by decide⟩

/-- C1 (amended): for every registered defect type other than
missed-allergy/wrong-medication (whose shared detector keys confidence on
which markers fired: `high` iff both `allergy_mentioned` and
`conflicting_prescription` fired, else `medium` iff `allergy_mentioned` fired,
else `low`) and interrupted-patient (a stub returning constant `medium` with no
markers), the verdict confidence is the ordinal function of the number of
markers in `markers_found`: two or more give `high`, exactly one gives
`medium`, zero gives `low` — with the defects that have only one possible
marker (dismissive, no-follow-up-plan) collapsing to binary high/low. -/
theorem confidence_combining_amended (t : String) (v : List Turn → ValidationResult)
    (script : List Turn) (hv : VALIDATORS.lookup t = some v) :
    (t ∉ (["missed-allergy", "wrong-medication", "interrupted-patient",
           "dismissive", "no-follow-up-plan"] : List String) →
      (v script).confidence = specOrdinalConfidence (v script).markers_found.length) ∧
    ((t = "dismissive" ∨ t = "no-follow-up-plan") →
      (v script).confidence = specBinaryConfidence (v script).markers_found.length) ∧
    ((t = "missed-allergy" ∨ t = "wrong-medication") →
      (v script).confidence =
        (if "allergy_mentioned" ∈ (v script).markers_found ∧
            "conflicting_prescription" ∈ (v script).markers_found then "high"
         else if "allergy_mentioned" ∈ (v script).markers_found then "medium"
         else "low")) ∧
    (t = "interrupted-patient" →
      (v script).confidence = "medium" ∧ (v script).markers_found = []) := by
  rcases validators_lookup_inv t v hv with hc | hc | hc | hc | hc | hc | hc | hc |
    hc | hc | hc <;>
  obtain ⟨rfl, rfl⟩ := hc
  · exact ⟨fun hmem => absurd (by decide) hmem,
      fun h => by rcases h with h | h <;> exact absurd h (by decide),
      fun _ => missed_allergy_confidence_shape script,
      fun h => absurd h (by decide)⟩
  · exact ⟨fun _ => red_flag_confidence_ordinal script,
      fun h => by rcases h with h | h <;> exact absurd h (by decide),
      fun h => by rcases h with h | h <;> exact absurd h (by decide),
      fun h => absurd h (by decide)⟩
  · exact ⟨fun _ => red_flag_confidence_ordinal script,
      fun h => by rcases h with h | h <;> exact absurd h (by decide),
      fun h => by rcases h with h | h <;> exact absurd h (by decide),
      fun h => absurd h (by decide)⟩
  · exact ⟨fun hmem => absurd (by decide) hmem,
      fun h => by rcases h with h | h <;> exact absurd h (by decide),
      fun _ => missed_allergy_confidence_shape script,
      fun h => absurd h (by decide)⟩
  · exact ⟨fun hmem => absurd (by decide) hmem,
      fun h => by rcases h with h | h <;> exact absurd h (by decide),
      fun h => by rcases h with h | h <;> exact absurd h (by decide),
      fun _ => ⟨rfl, rfl⟩⟩
  · exact ⟨fun _ => jargon_confidence_ordinal script,
      fun h => by rcases h with h | h <;> exact absurd h (by decide),
      fun h => by rcases h with h | h <;> exact absurd h (by decide),
      fun h => absurd h (by decide)⟩
  · exact ⟨fun hmem => absurd (by decide) hmem,
      fun _ => dismissive_confidence_binary script,
      fun h => by rcases h with h | h <;> exact absurd h (by decide),
      fun h => absurd h (by decide)⟩
  · exact ⟨fun _ => rushed_confidence_ordinal script,
      fun h => by rcases h with h | h <;> exact absurd h (by decide),
      fun h => by rcases h with h | h <;> exact absurd h (by decide),
      fun h => absurd h (by decide)⟩
  · exact ⟨fun _ => incomplete_history_confidence_ordinal script,
      fun h => by rcases h with h | h <;> exact absurd h (by decide),
      fun h => by rcases h with h | h <;> exact absurd h (by decide),
      fun h => absurd h (by decide)⟩
  · exact ⟨fun hmem => absurd (by decide) hmem,
      fun _ => no_follow_up_confidence_binary script,
      fun h => by rcases h with h | h <;> exact absurd h (by decide),
      fun h => absurd h (by decide)⟩
  · exact ⟨fun _ => incomplete_history_confidence_ordinal script,
      fun h => by rcases h with h | h <;> exact absurd h (by decide),
      fun h => by rcases h with h | h <;> exact absurd h (by decide),
      fun h => absurd h (by decide)⟩

/-- C1 witness: the amended statement instantiated at the registered type
`"rushed"` and the empty transcript. -/
theorem confidence_combining_amended_witness :
    (validate_rushed []).confidence =
      specOrdinalConfidence (validate_rushed []).markers_found.length :=
  (confidence_combining_amended "rushed" validate_rushed [] rfl).1 (by decide)

/-! ### Claim C8: every reported marker name is drawn from a known universe -/

/-- C8 counterexample: the registered rushed detector reports the marker
`"short_encounter"`, which is not a marker name defined in the static pattern
libraries (`DETECTION_PATTERNS` and `DOCUMENTATION_MARKERS`). -/
theorem markers_universe_cex :
    VALIDATORS.lookup "rushed" = some validate_rushed ∧
    "short_encounter" ∈ (validate_rushed []).markers_found ∧
    "short_encounter" ∉ knownMarkerNames :=
  ⟨rfl, by decide, by decide⟩

/-- C8 (amended): for every transcript and every registered defect type, every
name in the verdict's `markers_found` belongs to the marker names of the static
pattern libraries extended with the two detector-local names
`conflicting_prescription` (missed-allergy detector) and `short_encounter`
(rushed detector). -/
theorem markers_in_extended_universe (t : String) (v : List Turn → ValidationResult)
    (script : List Turn) (hv : VALIDATORS.lookup t = some v) :
    ∀ m ∈ (v script).markers_found,
      m ∈ knownMarkerNames ++ ["conflicting_prescription", "short_encounter"] := by
  intro m hm
  rcases validators_lookup_inv t v hv with hc | hc | hc | hc | hc | hc | hc | hc |
    hc | hc | hc <;>
  obtain ⟨-, rfl⟩ := hc
  · rcases missed_allergy_markers_sub script m hm with rfl | rfl | rfl <;> decide
  · rcases red_flag_markers_sub script m hm with rfl | rfl <;> decide
  · rcases red_flag_markers_sub script m hm with rfl | rfl <;> decide
  · rcases missed_allergy_markers_sub script m hm with rfl | rfl | rfl <;> decide
  · exact absurd hm (List.not_mem_nil m)
  · rcases jargon_markers_sub script m hm with rfl | rfl <;> decide
  · rcases dismissive_markers_sub script m hm with rfl <;> decide
  · rcases rushed_markers_sub script m hm with rfl | rfl <;> decide
  · rcases incomplete_history_markers_sub script m hm with rfl | rfl <;> decide
  · rcases no_follow_up_markers_sub script m hm with rfl <;> decide
  · rcases incomplete_history_markers_sub script m hm with rfl | rfl <;> decide

/-- C8 witness: the amended statement at the registered type `"rushed"`, the
empty transcript and the reported marker `"short_encounter"`. -/
theorem markers_in_extended_universe_witness :
    "short_encounter" ∈
      knownMarkerNames ++ ["conflicting_prescription", "short_encounter"] :=
  markers_in_extended_universe "rushed" validate_rushed [] rfl "short_encounter"
    (by decide)

/-! ### Claim C9: confidence cannot drop below `low` when turns are appended -/

/-- C9: for every registered defect type and every transcript whose verdict
has confidence `"low"`, appending extra turns (in particular extra turns
carrying corroborating marker text) yields a verdict whose confidence is not
lower than before in the spec's order low < medium < high. -/
theorem confidence_monotone_from_low (t : String) (v : List Turn → ValidationResult)
    (script extra : List Turn) (hv : VALIDATORS.lookup t = some v)
    (hlow : (v script).confidence = "low") :
    confRank ((v script).confidence) ≤ confRank ((v (script ++ extra)).confidence) := by
  rw [hlow]
  have h0 : confRank "low" = 0 := rfl
  rw [h0]
  exact Nat.zero_le _

/-- C9 witness: the dismissive detector on the empty transcript (confidence
`low`), with a turn carrying dismissive marker text appended. -/
theorem confidence_monotone_from_low_witness :
    confRank ((validate_dismissive []).confidence) ≤
      confRank ((validate_dismissive ([] ++ [⟨"doctor", "it's fine"⟩])).confidence) :=
  confidence_monotone_from_low "dismissive" validate_dismissive []
    [⟨"doctor", "it's fine"⟩] rfl (by decide)

/-! ### Helper lemmas: a pattern match inside one turn survives the space-joined
speaker text.  The separator and the surrounding turns only touch a match
through the word-boundary flag, and a space is not a word character. -/

theorem flagAfter_append (w : Bool) : ∀ (u v : List Char),
    flagAfter w (u ++ v) = flagAfter (flagAfter w u) v := by
  intro u
  induction u generalizing w with
  | nil => intro v; rfl
  | cons c cs ih => intro v; exact ih (isWordChar c) v

theorem not_isEmpty_iff_ne_nil {α : Type} (l : List α) :
    ((!l.isEmpty) = true) ↔ l ≠ [] := by
  cases l <;> simp

theorem starAnySplits_append_ext {ext : List Char} (hext : extHeadNonword ext) :
    ∀ (rest : List Char) (w : Bool) (s : MState), s ∈ starAnySplits w rest →
      (s.1, s.2 ++ ext) ∈ starAnySplits w (rest ++ ext) := by
  intro rest
  induction rest with
  | nil =>
      intro w s hs
      simp only [starAnySplits, List.mem_singleton] at hs
      subst hs
      cases ext with
      | nil => simp [starAnySplits]
      | cons e es => simp [starAnySplits]
  | cons c cs ih =>
      intro w s hs
      rw [List.cons_append]
      simp only [starAnySplits, List.mem_cons] at hs ⊢
      rcases hs with rfl | hs
      · exact Or.inl (by simp)
      · by_cases hc : (c == '\n') = true
        · simp [hc] at hs
        · simp only [hc, if_false] at hs ⊢
          exact Or.inr (ih (isWordChar c) s hs)

theorem starSpaceSplits_append_ext {ext : List Char} (hext : extHeadNonword ext) :
    ∀ (rest : List Char) (w : Bool) (s : MState), s ∈ starSpaceSplits w rest →
      (s.1, s.2 ++ ext) ∈ starSpaceSplits w (rest ++ ext) := by
  intro rest
  induction rest with
  | nil =>
      intro w s hs
      simp only [starSpaceSplits, List.mem_singleton] at hs
      subst hs
      cases ext with
      | nil => simp [starSpaceSplits]
      | cons e es => simp [starSpaceSplits]
  | cons c cs ih =>
      intro w s hs
      rw [List.cons_append]
      simp only [starSpaceSplits, List.mem_cons] at hs ⊢
      rcases hs with rfl | hs
      · exact Or.inl (by simp)
      · by_cases hc : isSpaceChar c = true
        · simp only [hc, if_true] at hs ⊢
          exact Or.inr (ih (isWordChar c) s hs)
        · simp [hc] at hs

theorem plusWordSplits_append_ext {ext : List Char} (hext : extHeadNonword ext) :
    ∀ (rest : List Char) (w : Bool) (s : MState), s ∈ plusWordSplits w rest →
      (s.1, s.2 ++ ext) ∈ plusWordSplits w (rest ++ ext) := by
  intro rest
  induction rest with
  | nil => intro w s hs; simp [plusWordSplits] at hs
  | cons c cs ih =>
      intro w s hs
      rw [List.cons_append]
      by_cases hc : isWordChar c = true
      · simp only [plusWordSplits, hc, if_true, List.mem_cons] at hs ⊢
        rcases hs with rfl | hs
        · exact Or.inl rfl
        · exact Or.inr (ih true s hs)
      · simp [plusWordSplits, hc] at hs

theorem reMatch_append_ext {ext : List Char} (hext : extHeadNonword ext) :
    ∀ (r : RE) (w : Bool) (rest : List Char) (s : MState),
      s ∈ reMatch r w rest → (s.1, s.2 ++ ext) ∈ reMatch r w (rest ++ ext) := by
  intro r
  induction r with
  | eps =>
      intro w rest s hs
      simp only [reMatch, List.mem_singleton] at hs
      subst hs
      simp [reMatch]
  | chr c =>
      intro w rest s hs
      cases rest with
      | nil => simp [reMatch] at hs
      | cons d ds =>
          rw [List.cons_append]
          by_cases hd : (d.toLower == c.toLower) = true
          · simp only [reMatch, hd, if_true, List.mem_singleton] at hs ⊢
            subst hs
            rfl
          · simp [reMatch, hd] at hs
  | anyc =>
      intro w rest s hs
      cases rest with
      | nil => simp [reMatch] at hs
      | cons d ds =>
          rw [List.cons_append]
          by_cases hd : (d == '\n') = true
          · simp [reMatch, hd] at hs
          · have hb : (d == '\n') = false := by
              rw [← Bool.not_eq_true]; exact hd
            simp only [reMatch, hb, Bool.false_eq_true, if_false,
              List.mem_singleton] at hs ⊢
            subst hs
            rfl
  | spacec =>
      intro w rest s hs
      cases rest with
      | nil => simp [reMatch] at hs
      | cons d ds =>
          rw [List.cons_append]
          by_cases hd : isSpaceChar d = true
          · simp only [reMatch, hd, if_true, List.mem_singleton] at hs ⊢
            subst hs
            rfl
          · simp [reMatch, hd] at hs
  | wb =>
      intro w rest s hs
      cases rest with
      | nil =>
          by_cases hw : (w != false) = true
          · simp only [reMatch, hw, if_true, List.mem_singleton] at hs
            subst hs
            cases ext with
            | nil => simp [reMatch, hw]
            | cons e es =>
                have he : isWordChar e = false := hext
                simp [reMatch, he, hw]
          · simp [reMatch, hw] at hs
      | cons d ds =>
          rw [List.cons_append]
          by_cases hw : (w != isWordChar d) = true
          · simp only [reMatch, hw, if_true, List.mem_singleton] at hs ⊢
            subst hs
            rfl
          · simp [reMatch, hw] at hs
  | seq a b iha ihb =>
      intro w rest s hs
      simp only [reMatch, List.mem_flatMap] at hs ⊢
      obtain ⟨m, hm, hsm⟩ := hs
      exact ⟨(m.1, m.2 ++ ext), iha w rest m hm, ihb m.1 m.2 s hsm⟩
  | alt a b iha ihb =>
      intro w rest s hs
      simp only [reMatch, List.mem_append] at hs ⊢
      rcases hs with hs | hs
      · exact Or.inl (iha w rest s hs)
      · exact Or.inr (ihb w rest s hs)
  | opt r ih =>
      intro w rest s hs
      simp only [reMatch, List.mem_cons] at hs ⊢
      rcases hs with rfl | hs
      · exact Or.inl rfl
      · exact Or.inr (ih w rest s hs)
  | starAny => intro w rest s hs; exact starAnySplits_append_ext hext rest w s hs
  | starSpace => intro w rest s hs; exact starSpaceSplits_append_ext hext rest w s hs
  | plusWord => intro w rest s hs; exact plusWordSplits_append_ext hext rest w s hs

theorem reSearchAux_of_reMatch_ne_nil (r : RE) (w : Bool) (cs : List Char)
    (h : reMatch r w cs ≠ []) : reSearchAux r w cs = true := by
  cases cs with
  | nil =>
      show (!(reMatch r w []).isEmpty) = true
      exact (not_isEmpty_iff_ne_nil _).2 h
  | cons c cs' =>
      show ((!(reMatch r w (c :: cs')).isEmpty) || reSearchAux r (isWordChar c) cs') = true
      rw [Bool.or_eq_true]
      exact Or.inl ((not_isEmpty_iff_ne_nil _).2 h)

theorem reSearchAux_append_ext (r : RE) {ext : List Char} (hext : extHeadNonword ext) :
    ∀ (cs : List Char) (w : Bool), reSearchAux r w cs = true →
      reSearchAux r w (cs ++ ext) = true := by
  intro cs
  induction cs with
  | nil =>
      intro w h
      have hne : reMatch r w [] ≠ [] := by
        intro he
        rw [show reSearchAux r w [] = (!(reMatch r w []).isEmpty) from rfl, he] at h
        simp at h
      obtain ⟨s, hs⟩ := List.exists_mem_of_ne_nil _ hne
      have hmem := reMatch_append_ext hext r w [] s hs
      rw [List.nil_append] at hmem ⊢
      exact reSearchAux_of_reMatch_ne_nil r w ext (List.ne_nil_of_mem hmem)
  | cons c cs' ih =>
      intro w h
      rw [List.cons_append]
      rw [show reSearchAux r w (c :: cs') =
        ((!(reMatch r w (c :: cs')).isEmpty) || reSearchAux r (isWordChar c) cs')
        from rfl, Bool.or_eq_true] at h
      rw [show reSearchAux r w (c :: (cs' ++ ext)) =
        ((!(reMatch r w (c :: (cs' ++ ext))).isEmpty) ||
          reSearchAux r (isWordChar c) (cs' ++ ext)) from rfl, Bool.or_eq_true]
      rcases h with h | h
      · have hne := (not_isEmpty_iff_ne_nil _).1 h
        obtain ⟨s, hs⟩ := List.exists_mem_of_ne_nil _ hne
        have hmem := reMatch_append_ext hext r w (c :: cs') s hs
        rw [List.cons_append] at hmem
        exact Or.inl ((not_isEmpty_iff_ne_nil _).2 (List.ne_nil_of_mem hmem))
      · exact Or.inr (ih (isWordChar c) h)

theorem reSearchAux_prepend (r : RE) : ∀ (pre : List Char) (w : Bool) (s : List Char),
    flagAfter w pre = false → reSearchAux r false s = true →
    reSearchAux r w (pre ++ s) = true := by
  intro pre
  induction pre with
  | nil =>
      intro w s hf hs
      rw [List.nil_append]
      have hw : w = false := hf
      rw [hw]
      exact hs
  | cons c pre' ih =>
      intro w s hf hs
      rw [List.cons_append]
      rw [show reSearchAux r w (c :: (pre' ++ s)) =
        ((!(reMatch r w (c :: (pre' ++ s))).isEmpty) ||
          reSearchAux r (isWordChar c) (pre' ++ s)) from rfl, Bool.or_eq_true]
      exact Or.inr (ih (isWordChar c) s hf hs)

theorem joinSpace_decompose : ∀ (l : List String) (x : String), x ∈ l →
    ∃ pre post : List Char, (joinSpace l).data = pre ++ (x.data ++ post) ∧
      flagAfter false pre = false ∧ extHeadNonword post := by
  intro l
  induction l with
  | nil => intro x hx; exact absurd hx (List.not_mem_nil x)
  | cons s rest ih =>
      intro x hx
      cases rest with
      | nil =>
          have hxs : x = s := by simpa using hx
          subst hxs
          exact ⟨[], [], by simp [joinSpace], rfl, trivial⟩
      | cons r1 rest1 =>
          have hdata : (joinSpace (s :: r1 :: rest1)).data =
              (s.data ++ [' ']) ++ (joinSpace (r1 :: rest1)).data := rfl
          rcases List.mem_cons.1 hx with rfl | hx1
          · refine ⟨[], ' ' :: (joinSpace (r1 :: rest1)).data, ?_, rfl, ?_⟩
            · rw [hdata]
              simp
            · show isWordChar ' ' = false
              decide
          · obtain ⟨pre, post, heq, hflag, hpost⟩ := ih x hx1
            refine ⟨s.data ++ ' ' :: pre, post, ?_, ?_, hpost⟩
            · rw [hdata, heq]
              simp [List.append_assoc]
            · have hsplit : s.data ++ ' ' :: pre = (s.data ++ [' ']) ++ pre := by simp
              rw [hsplit, flagAfter_append]
              have hsp : ∀ w : Bool, flagAfter w (s.data ++ [' ']) = false := by
                intro w
                rw [flagAfter_append]
                rfl
              rw [hsp]
              exact hflag

theorem reSearch_joinSpace_of_mem (r : RE) {l : List String} {x : String}
    (hx : x ∈ l) (h : reSearch r x = true) : reSearch r (joinSpace l) = true := by
  obtain ⟨pre, post, heq, hflag, hpost⟩ := joinSpace_decompose l x hx
  unfold reSearch at h ⊢
  rw [heq]
  exact reSearchAux_prepend r pre false (x.data ++ post) hflag
    (reSearchAux_append_ext r hpost x.data false h)

theorem has_pattern_match_joinSpace_of_mem {l : List String} {x : String}
    (patterns : List RE) (hx : x ∈ l)
    (h : has_pattern_match x patterns = true) :
    has_pattern_match (joinSpace l) patterns = true := by
  unfold has_pattern_match at h ⊢
  rw [List.any_eq_true] at h ⊢
  obtain ⟨r, hr, hsearch⟩ := h
  exact ⟨r, hr, reSearch_joinSpace_of_mem r hx hsearch⟩

/-! ### Claim C2: the Scenario A pattern for missed-allergy -/

/-- C2: for every transcript in which some parent-role turn's text contains
an allergy mention (a match of the `allergy_mentioned` patterns) and some
doctor-role turn's text prescribes a penicillin-class drug (a match of the
`penicillin_class` patterns), the missed-allergy detector reports both
`allergy_mentioned` and `conflicting_prescription` in `markers_found`,
confidence `"high"`, and `likely_present = true`. -/
theorem scenarioA_missed_allergy (script : List Turn)
    (hA : ∃ turn ∈ script, strLower turn.speaker = "parent" ∧
      has_pattern_match (strLower turn.text) (dpat "allergy_mentioned") = true)
    (hP : ∃ turn ∈ script, strLower turn.speaker = "doctor" ∧
      has_pattern_match (strLower turn.text) (dpat "penicillin_class") = true) :
    "allergy_mentioned" ∈ (validate_missed_allergy script).markers_found ∧
    "conflicting_prescription" ∈ (validate_missed_allergy script).markers_found ∧
    (validate_missed_allergy script).confidence = "high" ∧
    (validate_missed_allergy script).likely_present = true := by
  obtain ⟨ta, hta, hsa, hma⟩ := hA
  obtain ⟨td, htd, hsd, hmd⟩ := hP
  have hA2 : has_pattern_match (get_speaker_text script "parent")
      (dpat "allergy_mentioned") = true := by
    refine has_pattern_match_joinSpace_of_mem _ ?_ hma
    exact List.mem_map.2 ⟨ta, List.mem_filter.2 ⟨hta, by rw [hsa]; decide⟩, rfl⟩
  have hP2 : has_pattern_match (get_speaker_text script "doctor")
      (dpat "penicillin_class") = true := by
    refine has_pattern_match_joinSpace_of_mem _ ?_ hmd
    exact List.mem_map.2 ⟨td, List.mem_filter.2 ⟨htd, by rw [hsd]; decide⟩, rfl⟩
  by_cases h3 : has_pattern_match (get_speaker_text script "doctor")
      (dpat "prescription_given") = true <;>
  simp [validate_missed_allergy, hA2, hP2, h3]

/-- C2 witness: the spec's Scenario A transcript (allergic reaction reported
by the parent, Augmentin prescribed by the doctor). -/
theorem scenarioA_missed_allergy_witness :
    "allergy_mentioned" ∈ (validate_missed_allergy scenarioAScript).markers_found ∧
    "conflicting_prescription" ∈ (validate_missed_allergy scenarioAScript).markers_found ∧
    (validate_missed_allergy scenarioAScript).confidence = "high" ∧
    (validate_missed_allergy scenarioAScript).likely_present = true :=
  scenarioA_missed_allergy scenarioAScript (by decide) (by decide)

/-! ### Claim C4: Scenario D target inference -/

/-- C4: for the Scenario D descriptor (well-child, 30 months,
two-parents+child, zero requested defects) and every transcript, the inferred
targets include the four well-child category tags, the tag of the age band
containing 30 months (`preschool_readiness`, the band [24, 60)), and
`multi_caregiver_communication`, and contain no tag with the `detect_`
prefix. -/
theorem scenarioD_inferred_targets (script : List Turn) :
    "growth_assessment" ∈ infer_targets scenarioDSpec script ∧
    "developmental_screening" ∈ infer_targets scenarioDSpec script ∧
    "anticipatory_guidance" ∈ infer_targets scenarioDSpec script ∧
    "immunization_review" ∈ infer_targets scenarioDSpec script ∧
    "preschool_readiness" ∈ infer_targets scenarioDSpec script ∧
    "multi_caregiver_communication" ∈ infer_targets scenarioDSpec script ∧
    (infer_targets scenarioDSpec script).all
      (fun tag => !(strStartsWith tag "detect_")) = true := by
  have hshape : inferTargetsRaw scenarioDSpec script =
      ["growth_assessment", "developmental_screening", "anticipatory_guidance",
       "immunization_review", "preschool_readiness", "multi_caregiver_communication"] ++
      (((TARGET_PATTERNS.filter (fun p =>
          has_pattern_match (get_full_text script) p.2)).map Prod.fst) ++ []) := rfl
  have hmem : ∀ x : String, x ∈ infer_targets scenarioDSpec script ↔
      x ∈ inferTargetsRaw scenarioDSpec script := by
    intro x
    unfold infer_targets
    rw [mem_dedupLoop]
    simp
  refine ⟨?_, ?_, ?_, ?_, ?_, ?_, ?_⟩
  · rw [hmem, hshape]; simp
  · rw [hmem, hshape]; simp
  · rw [hmem, hshape]; simp
  · rw [hmem, hshape]; simp
  · rw [hmem, hshape]; simp
  · rw [hmem, hshape]; simp
  · rw [List.all_eq_true]
    intro x hx
    rw [hmem, hshape] at hx
    rcases List.mem_append.1 hx with h | h
    · simp only [List.mem_cons, List.not_mem_nil, or_false] at h
      rcases h with rfl | rfl | rfl | rfl | rfl | rfl <;> decide
    · rcases List.mem_append.1 h with h2 | h2
      · have hsub : x ∈ TARGET_PATTERNS.map Prod.fst :=
          (List.Sublist.map Prod.fst (List.filter_sublist TARGET_PATTERNS)).subset h2
        have hall : ∀ y ∈ TARGET_PATTERNS.map Prod.fst,
            (!(strStartsWith y "detect_")) = true := by
          simp only [TARGET_PATTERNS, List.map_cons, List.map_nil]
          decide
        exact hall x hsub
      · exact absurd h2 (List.not_mem_nil x)

/-! ### Claim C6: the validation summary fields and the guarded division -/

/-- C6: for every verdict mapping, `validation_summary` reports the number of
entries as the total requested, the count of entries with confidence
`"high"`, the count with `likely_present = true`, and a success rate equal to
the likely-present count divided by the total — explicitly 0, not a division
fault, when the total is 0. -/
theorem validation_summary_fields (results : List (String × ValidationResult)) :
    (validation_summary results).total_errors_requested = results.length ∧
    (validation_summary results).high_confidence_detected =
      results.countP (fun p => p.2.confidence == "high") ∧
    (validation_summary results).likely_present =
      results.countP (fun p => p.2.likely_present) ∧
    (results.length = 0 → (validation_summary results).success_rate = 0) ∧
    (0 < results.length →
      (validation_summary results).success_rate =
        (results.countP (fun p => p.2.likely_present) : ℚ) / (results.length : ℚ)) := by
  refine ⟨rfl, (List.countP_eq_length_filter _ _).symm,
    (List.countP_eq_length_filter _ _).symm, ?_, ?_⟩
  · intro h
    simp [validation_summary, h]
  · intro h
    simp [validation_summary, h, List.countP_eq_length_filter]

/-! ### Helper lemmas for claim C7 -/

theorem categorize_foldl (targets : List String) : ∀ (acc : TargetCategories),
    targets.foldl categorizeStep acc =
      { clinical_skills := acc.clinical_skills ++
          targets.filter (fun tg => targetRoute tg == "clinical_skills")
        communication := acc.communication ++
          targets.filter (fun tg => targetRoute tg == "communication")
        documentation := acc.documentation ++
          targets.filter (fun tg => targetRoute tg == "documentation")
        age_specific := acc.age_specific ++
          targets.filter (fun tg => targetRoute tg == "age_specific")
        content_specific := acc.content_specific ++
          targets.filter (fun tg => targetRoute tg == "content_specific")
        error_detection := acc.error_detection ++
          targets.filter (fun tg => targetRoute tg == "error_detection") } := by
  induction targets with
  | nil => intro acc; simp
  | cons tg ts ih =>
      intro acc
      rw [List.foldl_cons, ih (categorizeStep acc tg)]
      by_cases hd : strStartsWith tg "detect_" = true
      · simp [categorizeStep, targetRoute, hd, List.filter_cons, List.append_assoc]
      by_cases hc : tg ∈ clinicalList
      · simp [categorizeStep, targetRoute, hd, hc, List.filter_cons, List.append_assoc]
      by_cases hcm : tg ∈ communicationList
      · simp [categorizeStep, targetRoute, hd, hc, hcm, List.filter_cons,
          List.append_assoc]
      by_cases hdc : tg ∈ documentationList
      · simp [categorizeStep, targetRoute, hd, hc, hcm, hdc, List.filter_cons,
          List.append_assoc]
      by_cases ha : tg ∈ ageSpecificList
      · simp [categorizeStep, targetRoute, hd, hc, hcm, hdc, ha, List.filter_cons,
          List.append_assoc]
      simp [categorizeStep, targetRoute, hd, hc, hcm, hdc, ha, List.filter_cons,
        List.append_assoc]

theorem lookup_mem {α : Type} : ∀ {m : List (String × α)} {k : String} {v : α},
    m.lookup k = some v → (k, v) ∈ m := by
  intro m
  induction m with
  | nil => intro k v h; exact Option.noConfusion h
  | cons p ps ih =>
      intro k v h
      obtain ⟨k1, v1⟩ := p
      rw [List.lookup_cons] at h
      cases hbeq : (k == k1)
      · simp only [hbeq] at h
        exact List.mem_cons_of_mem _ (ih h)
      · simp only [hbeq] at h
        obtain rfl : k = k1 := beq_iff_eq.1 hbeq
        obtain rfl : v1 = v := Option.some.inj h
        exact List.mem_cons_self _ _

theorem mem_lookup_of_nodup_keys {α : Type} : ∀ (m : List (String × α)),
    (m.map Prod.fst).Nodup → ∀ {k : String} {v : α}, (k, v) ∈ m →
      m.lookup k = some v := by
  intro m
  induction m with
  | nil => intro _ k v h; exact absurd h (List.not_mem_nil _)
  | cons p ps ih =>
      intro hnd k v h
      obtain ⟨k1, v1⟩ := p
      rw [List.map_cons] at hnd
      rcases List.mem_cons.1 h with he | hm
      · obtain ⟨rfl, rfl⟩ := Prod.mk.inj he
        simp [List.lookup_cons]
      · have hk : k ≠ k1 := by
          intro he
          subst he
          exact (List.nodup_cons.1 hnd).1 (List.mem_map.2 ⟨(k, v), hm, rfl⟩)
        have hbeq : (k == k1) = false := beq_eq_false_iff_ne.2 hk
        simp only [List.lookup_cons, hbeq]
        exact ih (List.nodup_cons.1 hnd).2 hm

theorem targetRoute_mem_names (tg : String) :
    targetRoute tg ∈ (["clinical_skills", "communication", "documentation",
      "age_specific", "content_specific", "error_detection"] : List String) := by
  unfold targetRoute
  split_ifs <;> simp

/-! ### Claim C7: the categorizer partitions and drops empty buckets -/

/-- C7: `categorize_targets` routes each tag to exactly one bucket — the
`detect_` prefix always wins and routes to `error_detection`, then the fixed
membership lists are consulted in order, and everything else lands in
`content_specific` (the rule captured by `targetRoute`) — and buckets that end
up empty are omitted from the returned mapping: every key present maps to the
nonempty list of exactly the tags routed to it, and every tag's bucket is
present. -/
theorem categorize_targets_partition (targets : List String) :
    (∀ k vs, (categorize_targets targets).lookup k = some vs →
      vs ≠ [] ∧ ∀ tg, tg ∈ vs ↔ tg ∈ targets ∧ targetRoute tg = k) ∧
    (∀ tg, tg ∈ targets → ∃ vs,
      (categorize_targets targets).lookup (targetRoute tg) = some vs ∧ tg ∈ vs) := by
  have hcats : categorize_targets targets =
      ([("clinical_skills", targets.filter (fun tg => targetRoute tg == "clinical_skills")),
        ("communication", targets.filter (fun tg => targetRoute tg == "communication")),
        ("documentation", targets.filter (fun tg => targetRoute tg == "documentation")),
        ("age_specific", targets.filter (fun tg => targetRoute tg == "age_specific")),
        ("content_specific", targets.filter (fun tg => targetRoute tg == "content_specific")),
        ("error_detection", targets.filter (fun tg => targetRoute tg == "error_detection"))]).filter
        (fun p => !p.2.isEmpty) := by
    unfold categorize_targets
    rw [categorize_foldl targets ⟨[], [], [], [], [], []⟩]
    simp
  constructor
  · intro k vs h
    rw [hcats] at h
    have hmem := List.mem_filter.1 (lookup_mem h)
    have hvsne : vs ≠ [] := by
      intro he
      rw [he] at hmem
      simp at hmem
    refine ⟨hvsne, ?_⟩
    have h6 := hmem.1
    simp only [List.mem_cons, List.not_mem_nil, or_false] at h6
    rcases h6 with he | he | he | he | he | he <;>
    · obtain ⟨rfl, rfl⟩ := Prod.mk.inj he
      intro tg
      rw [List.mem_filter]
      simp [beq_iff_eq]
  · intro tg htg
    refine ⟨targets.filter (fun x => targetRoute x == targetRoute tg), ?_, ?_⟩
    · rw [hcats]
      apply mem_lookup_of_nodup_keys
      · refine List.Sublist.nodup
          (List.Sublist.map Prod.fst (List.filter_sublist _)) ?_
        simp only [List.map_cons, List.map_nil]
        decide
      · rw [List.mem_filter]
        constructor
        · have h6 := targetRoute_mem_names tg
          simp only [List.mem_cons, List.not_mem_nil, or_false] at h6
          rcases h6 with he | he | he | he | he | he <;>
          · rw [he]
            simp
        · have htf : tg ∈ targets.filter (fun x => targetRoute x == targetRoute tg) :=
            List.mem_filter.2 ⟨htg, by simp⟩
          have hne := List.ne_nil_of_mem htf
          simp only [Bool.not_eq_true']
          cases hfe : targets.filter (fun x => targetRoute x == targetRoute tg) with
          | nil => exact absurd hfe hne
          | cons a l => rfl
    · exact List.mem_filter.2 ⟨htg, by simp⟩

end Syrinx
